import Mathlib

/-!
Shallow embedding of the clippy command metadata and dispatch engine
(src/clippy/command_method.py and src/clippy/command_module.py), together
with theorems settling the specified properties of its operations.

Python dictionaries are embedded as lists in insertion order; printing is
embedded as the list of strings passed to print; machine-level concerns do
not arise (all quantities are small naturals and strings).
-/

/-- Python annotation values as inspected by the code: the class bool
(`param.annotation is bool`), no annotation (`param.annotation is None`),
or any other class, carrying its `__name__`. -/
inductive Anno where
  | unspecified
  | boolean
  | cls (typeName : String)
deriving DecidableEq

/-- Parameter descriptor (clippy CommandParam as consumed by
command_method.py): name, declaration index, presence of a default,
annotation (field `anno` here) and documentation line (`details`). -/
structure CommandParam where
  name : String
  index : Nat
  has_default : Bool
  anno : Anno
  details : String
deriving DecidableEq

/-- Runtime values passed to and returned by command implementations. -/
inductive Value where
  | str (s : String)
  | intV (z : Int)
  | boolV (b : Bool)
  | noneV
deriving DecidableEq

/-- Python exceptions that the embedded code can raise or propagate. -/
inductive PyErr where
  | typeError (msg : String)
  | valueError (msg : String)
  | indexError
  | appError (tag : String)
deriving DecidableEq

/-- CommandMethod: a discovered command. `params` is the ordered mapping
`self._params` (values in dictionary iteration order, keyed by name);
`main` is `self._main` (the documentation); `impl` is the bound callable. -/
structure CommandMethod where
  name : String
  main : String
  params : List CommandParam
  impl : List (String × Value) → Except PyErr Value

/-- Comparison key used by `result.sort(key=lambda x: x.index)`. -/
def paramLE (a b : CommandParam) : Prop := a.index ≤ b.index

instance : DecidableRel paramLE := fun a b => inferInstanceAs (Decidable (a.index ≤ b.index))

instance : IsTotal CommandParam paramLE := ⟨fun a b => Nat.le_total a.index b.index⟩

instance : IsTrans CommandParam paramLE := ⟨fun _ _ _ h1 h2 => Nat.le_trans h1 h2⟩

/-- Strict version of `paramLE`, used to show sorted outputs are unique. -/
def paramLT (a b : CommandParam) : Prop := a.index < b.index

instance : DecidableRel paramLT := fun a b => inferInstanceAs (Decidable (a.index < b.index))

instance : IsAntisymm CommandParam paramLT :=
  ⟨fun _ _ h1 h2 => absurd (Nat.lt_trans h1 h2) (Nat.lt_irrefl _)⟩

/-- CommandMethod.required_params: filter the mapping values to the
parameters without a default, then sort (stably) by declaration index. -/
def CommandMethod.required_params (m : CommandMethod) : List CommandParam :=
  List.insertionSort paramLE (m.params.filter (fun p => !p.has_default))

/-- CommandMethod.optional_params: filter the mapping values to the
parameters with a default, then sort (stably) by declaration index. -/
def CommandMethod.optional_params (m : CommandMethod) : List CommandParam :=
  List.insertionSort paramLE (m.params.filter (fun p => p.has_default))

/-- CommandMethod.longest_param_name_length: 0 when the mapping is empty,
otherwise the length of the longest key (parameter name). -/
def CommandMethod.longest_param_name_length (m : CommandMethod) : Nat :=
  if m.params.length < 1 then 0
  else (m.params.map (fun p => p.name.length)).foldl max 0

/-- Distinctness of indices is symmetric, so it transfers along permutations. -/
theorem index_ne_symmetric {a b : CommandParam} (h : a.index ≠ b.index) : b.index ≠ a.index :=
  Ne.symm h

/-- A list sorted weakly by index with pairwise distinct indices is sorted
strictly by index. -/
theorem sorted_paramLT_of_sorted_paramLE {l : List CommandParam}
    (hs : List.Sorted paramLE l)
    (hne : l.Pairwise (fun a b => a.index ≠ b.index)) :
    List.Sorted paramLT l :=
  (hs.and hne).imp (fun h => Nat.lt_of_le_of_ne h.1 h.2)

/-- Sorting a filtered mapping by index is invariant under permutations of
the mapping, as long as declaration indices are pairwise distinct. -/
theorem insertionSort_filter_eq_of_perm (q : CommandParam → Bool)
    {l l' : List CommandParam} (hperm : l.Perm l')
    (hidx : l.Pairwise (fun a b => a.index ≠ b.index)) :
    List.insertionSort paramLE (l'.filter q) = List.insertionSort paramLE (l.filter q) := by
  have hidx' : l'.Pairwise (fun a b => a.index ≠ b.index) :=
    (hperm.pairwise_iff index_ne_symmetric).mp hidx
  have hfne : (l.filter q).Pairwise (fun a b => a.index ≠ b.index) :=
    hidx.sublist (List.filter_sublist l)
  have hfne' : (l'.filter q).Pairwise (fun a b => a.index ≠ b.index) :=
    hidx'.sublist (List.filter_sublist l')
  have hp : (List.insertionSort paramLE (l'.filter q)).Perm
      (List.insertionSort paramLE (l.filter q)) :=
    ((List.perm_insertionSort paramLE (l'.filter q)).trans
      ((hperm.filter q).symm)).trans (List.perm_insertionSort paramLE (l.filter q)).symm
  refine List.eq_of_perm_of_sorted (r := paramLT) hp ?_ ?_
  · exact sorted_paramLT_of_sorted_paramLE (List.sorted_insertionSort paramLE _)
      (((List.perm_insertionSort paramLE (l'.filter q)).pairwise_iff index_ne_symmetric).mpr hfne')
  · exact sorted_paramLT_of_sorted_paramLE (List.sorted_insertionSort paramLE _)
      (((List.perm_insertionSort paramLE (l.filter q)).pairwise_iff index_ne_symmetric).mpr hfne)

/-- C1: for a command whose parameter mapping has pairwise distinct
declaration indices, required_params returns exactly the parameters with
no default, sorted by index ascending, optional_params returns exactly the
complementary parameters, also sorted by index ascending, and both results
are unchanged under any permutation of the underlying mapping. -/
theorem required_optional_params_spec (m m' : CommandMethod)
    (hperm : m.params.Perm m'.params)
    (hidx : m.params.Pairwise (fun a b => a.index ≠ b.index)) :
    (m.required_params.Perm (m.params.filter (fun p => !p.has_default)) ∧
      List.Sorted paramLE m.required_params) ∧
    (m.optional_params.Perm (m.params.filter (fun p => p.has_default)) ∧
      List.Sorted paramLE m.optional_params) ∧
    m'.required_params = m.required_params ∧
    m'.optional_params = m.optional_params := by
  refine ⟨⟨List.perm_insertionSort paramLE _, List.sorted_insertionSort paramLE _⟩,
    ⟨List.perm_insertionSort paramLE _, List.sorted_insertionSort paramLE _⟩, ?_, ?_⟩
  · exact insertionSort_filter_eq_of_perm (fun p => !p.has_default) hperm hidx
  · exact insertionSort_filter_eq_of_perm (fun p => p.has_default) hperm hidx

/-- An implementation used by the concrete example commands. -/
def implEx : List (String × Value) → Except PyErr Value := fun _ => Except.ok Value.noneV

/-- Example parameter: required, unannotated. -/
def pAlpha : CommandParam := ⟨"alpha", 0, false, Anno.unspecified, "da"⟩

/-- Example parameter: optional, annotated bool. -/
def pBeta : CommandParam := ⟨"beta", 1, true, Anno.boolean, "db"⟩

/-- Example parameter: optional, annotated with the class int. -/
def pGamma : CommandParam := ⟨"gamma", 2, true, Anno.cls "int", "dc"⟩

/-- Example parameter: optional, unannotated. -/
def pDelta : CommandParam := ⟨"delta", 3, true, Anno.unspecified, "dd"⟩

/-- Example command with one required and three optional parameters. -/
def mEx : CommandMethod := ⟨"run", "Runs.", [pAlpha, pBeta, pGamma, pDelta], implEx⟩

/-- The same command with its parameter mapping iterated in another order. -/
def mExShuffled : CommandMethod := ⟨"run", "Runs.", [pGamma, pAlpha, pDelta, pBeta], implEx⟩

/-- Witness for C1 at a concrete command and a shuffled copy of its mapping. -/
theorem required_optional_params_spec_witness :
    mEx.params.Perm mExShuffled.params ∧
    mEx.params.Pairwise (fun a b => a.index ≠ b.index) ∧
    ((mEx.required_params.Perm (mEx.params.filter (fun p => !p.has_default)) ∧
      List.Sorted paramLE mEx.required_params) ∧
    (mEx.optional_params.Perm (mEx.params.filter (fun p => p.has_default)) ∧
      List.Sorted paramLE mEx.optional_params) ∧
    mExShuffled.required_params = mEx.required_params ∧
    mExShuffled.optional_params = mEx.optional_params) :=
  ⟨by decide, by decide, required_optional_params_spec mEx mExShuffled (by decide) (by decide)⟩

/-- Rendering of one parameter in the short_params loop: the if/elif/else
chain of the loop body, whose selected branch is appended to the result. -/
def shortEntry (p : CommandParam) : String :=
  if p.has_default then
    match p.anno with
    | Anno.boolean => "[--" ++ p.name ++ "] "
    | Anno.unspecified => "[--" ++ p.name ++ "=<" ++ p.name.take 2 ++ ">] "
    | Anno.cls tn => "[--" ++ p.name ++ "=<" ++ tn ++ ">] "
  else "<" ++ p.name ++ "> "

/-- CommandMethod.short_params: fold over the mapping values in iteration
order, appending each rendered parameter to the accumulating string. -/
def CommandMethod.short_params (m : CommandMethod) : String :=
  m.params.foldl (fun result p => result ++ shortEntry p) ""

/-- Concatenation of the renderings of a list of parameters. -/
def catMap (f : CommandParam → String) : List CommandParam → String
  | [] => ""
  | p :: ps => f p ++ catMap f ps

/-- The string fold of short_params is the concatenation of the per-element
renderings, appended to the initial accumulator. -/
theorem foldl_append_eq_catMap (f : CommandParam → String) :
    ∀ (l : List CommandParam) (s : String),
      l.foldl (fun r p => r ++ f p) s = s ++ catMap f l
  | [], s => by simp [catMap]
  | p :: ps, s => by
    rw [List.foldl_cons, foldl_append_eq_catMap f ps (s ++ f p), catMap, String.append_assoc]

/-- catMap distributes over list concatenation. -/
theorem catMap_append (f : CommandParam → String) :
    ∀ (l₁ l₂ : List CommandParam), catMap f (l₁ ++ l₂) = catMap f l₁ ++ catMap f l₂
  | [], _ => by simp [catMap]
  | p :: ps, l₂ => by
    rw [List.cons_append, catMap, catMap, catMap_append f ps l₂, String.append_assoc]

/-- catMap only depends on the renderings of the list members. -/
theorem catMap_congr {f g : CommandParam → String} :
    ∀ {l : List CommandParam}, (∀ p ∈ l, f p = g p) → catMap f l = catMap g l
  | [], _ => rfl
  | p :: ps, h => by
    rw [catMap, catMap, h p (List.mem_cons_self p ps),
      catMap_congr (fun q hq => h q (List.mem_cons_of_mem p hq))]

/-- In a Python signature the positional parameters with a default follow
all those without one; under that shape a list splits into its required
part followed by its optional part. -/
theorem params_split_of_defaults_trailing :
    ∀ {l : List CommandParam},
      l.Pairwise (fun a b => a.has_default = true → b.has_default = true) →
      l = l.filter (fun p => !p.has_default) ++ l.filter (fun p => p.has_default)
  | [], _ => rfl
  | p :: ps, h => by
    have hhead := (List.pairwise_cons.mp h).1
    have htail := (List.pairwise_cons.mp h).2
    by_cases hp : p.has_default = true
    · have h1 : (p :: ps).filter (fun q => !q.has_default) = [] := by
        rw [List.filter_eq_nil_iff]
        intro a ha
        rcases List.mem_cons.mp ha with rfl | ha'
        · simp [hp]
        · simp [hhead a ha' hp]
      have h2 : (p :: ps).filter (fun q => q.has_default) = p :: ps := by
        rw [List.filter_eq_self]
        intro a ha
        rcases List.mem_cons.mp ha with rfl | ha'
        · simp [hp]
        · simp [hhead a ha' hp]
      rw [h1, h2, List.nil_append]
    · have hp' : p.has_default = false := by simpa using hp
      have h1 : (p :: ps).filter (fun q => !q.has_default) =
          p :: ps.filter (fun q => !q.has_default) := by simp [List.filter_cons, hp']
      have h2 : (p :: ps).filter (fun q => q.has_default) =
          ps.filter (fun q => q.has_default) := by simp [List.filter_cons, hp']
      rw [h1, h2, List.cons_append]
      exact congrArg (p :: ·) (params_split_of_defaults_trailing htail)

/-- C3: for a command whose mapping iterates in declaration order (sorted
by index) and whose defaulted parameters all come after the others (as
Python positional signatures force), the one-line usage summary is the
required parameters rendered as name in angle brackets, in declaration
order, followed by the optional parameters in declaration order, rendered
as a bare flag when annotated bool, with a value token holding the first
two characters of the name when unannotated, and with the class name
otherwise. -/
theorem short_params_spec (m : CommandMethod)
    (hsort : List.Sorted paramLE m.params)
    (htrail : m.params.Pairwise (fun a b => a.has_default = true → b.has_default = true)) :
    m.short_params =
      catMap (fun p => "<" ++ p.name ++ "> ") m.required_params ++
      catMap (fun p =>
        match p.anno with
        | Anno.boolean => "[--" ++ p.name ++ "] "
        | Anno.unspecified => "[--" ++ p.name ++ "=<" ++ p.name.take 2 ++ ">] "
        | Anno.cls tn => "[--" ++ p.name ++ "=<" ++ tn ++ ">] ") m.optional_params := by
  have hreqs : List.Sorted paramLE (m.params.filter (fun p => !p.has_default)) :=
    hsort.sublist (List.filter_sublist m.params)
  have hopts : List.Sorted paramLE (m.params.filter (fun p => p.has_default)) :=
    hsort.sublist (List.filter_sublist m.params)
  have hreq : m.required_params = m.params.filter (fun p => !p.has_default) :=
    List.Sorted.insertionSort_eq hreqs
  have hopt : m.optional_params = m.params.filter (fun p => p.has_default) :=
    List.Sorted.insertionSort_eq hopts
  have hmain : m.short_params = catMap shortEntry m.params := by
    rw [CommandMethod.short_params, foldl_append_eq_catMap, String.empty_append]
  rw [hmain, hreq, hopt]
  conv_lhs => rw [params_split_of_defaults_trailing htrail]
  rw [catMap_append]
  congr 1
  · refine catMap_congr (fun p hp => ?_)
    have hpd : p.has_default = false := by
      have := List.of_mem_filter hp
      simpa using this
    simp [shortEntry, hpd]
  · refine catMap_congr (fun p hp => ?_)
    have hpd : p.has_default = true := List.of_mem_filter hp
    simp [shortEntry, hpd]

/-- Witness for C3 at the concrete example command, exercising all three
optional renderings and the required rendering. -/
theorem short_params_spec_witness :
    List.Sorted paramLE mEx.params ∧
    mEx.params.Pairwise (fun a b => a.has_default = true → b.has_default = true) ∧
    mEx.short_params =
      catMap (fun p => "<" ++ p.name ++ "> ") mEx.required_params ++
      catMap (fun p =>
        match p.anno with
        | Anno.boolean => "[--" ++ p.name ++ "] "
        | Anno.unspecified => "[--" ++ p.name ++ "=<" ++ p.name.take 2 ++ ">] "
        | Anno.cls tn => "[--" ++ p.name ++ "=<" ++ tn ++ ">] ") mEx.optional_params :=
  ⟨by decide, by decide, short_params_spec mEx (by decide) (by decide)⟩

/-- The padding helper as written in the source: it appends
`len(string) - count` spaces, where a negative repetition count yields the
empty string in Python, matching truncated subtraction on Nat. -/
def _right_pad (s : String) (count : Nat) : String :=
  s ++ String.mk (List.replicate (s.length - count) ' ')

/-- CommandMethod.print_help: the sequence of strings handed to print, one
list element per print call. -/
def CommandMethod.print_help (m : CommandMethod) (module_name : String) : List String :=
  [m.main, "\nUsage:",
    "\tpython -m " ++ module_name ++ " " ++ m.name ++ " " ++ m.short_params] ++
  (if 0 < m.params.length then
    "\nPositional arguments:" ::
      m.required_params.map
        (fun p => "\t" ++ _right_pad p.name m.longest_param_name_length ++ "\t" ++ p.details)
  else []) ++
  ["\nOptions:", "\t--help\tShow this screen."] ++
  m.optional_params.map
    (fun p => "\t--" ++ _right_pad p.name m.longest_param_name_length ++ "\t" ++ p.details)

/-- Two strings whose first characters are the tab and the newline differ. -/
theorem ne_of_head_tab_nl {s r : String} (hs : s.data.head? = some '\t')
    (hr : r.data.head? = some '\n') : s ≠ r := by
  intro he
  rw [he, hr] at hs
  exact absurd (Option.some.inj hs) (by decide)

/-- Example parameter for the counterexample command: optional only. -/
def pOpt : CommandParam := ⟨"x", 0, true, Anno.unspecified, "dx"⟩

/-- A command whose mapping is nonempty but has no required parameter. -/
def mOnlyOpt : CommandMethod := ⟨"c", "doc", [pOpt], implEx⟩

/-- C4 counterexample: a command with one optional parameter and no
required parameter still prints the Positional arguments header, because
the code tests the size of the whole mapping, not of required_params. -/
theorem print_help_positional_counterexample :
    mOnlyOpt.required_params = [] ∧
    "\nPositional arguments:" ∈ mOnlyOpt.print_help "app" := by decide

/-- C4 amended: the per-command help contains the Positional arguments
header if and only if the command has at least one parameter of any kind
(the code tests the whole mapping, so a command with only optional
parameters still gets the header, above an empty block listing the
required parameters); the Options block is always present, opening with
the synthetic help entry and followed by one line per optional parameter.
The side conditions keep the free-form documentation line from colliding
with the two header strings. -/
theorem print_help_blocks (m : CommandMethod) (module_name : String)
    (hd : m.main ≠ "\nPositional arguments:")
    (ho : m.main ≠ "\nOptions:") :
    ("\nPositional arguments:" ∈ m.print_help module_name ↔ 0 < m.params.length) ∧
    (∃ pre,
      m.print_help module_name =
        pre ++ "\nOptions:" :: "\t--help\tShow this screen." ::
          m.optional_params.map
            (fun p => "\t--" ++ _right_pad p.name m.longest_param_name_length ++ "\t" ++ p.details) ∧
      "\nOptions:" ∉ pre) := by
  constructor
  · constructor
    · intro hmem
      by_contra hlen
      have hempty : m.params = [] := by
        cases hp : m.params with
        | nil => rfl
        | cons a l => rw [hp] at hlen; exact absurd (Nat.succ_pos _) hlen
      have hreq : m.required_params = [] := by
        simp [CommandMethod.required_params, hempty, List.insertionSort]
      have hopt : m.optional_params = [] := by
        simp [CommandMethod.optional_params, hempty, List.insertionSort]
      rw [CommandMethod.print_help, hreq, hopt, hempty] at hmem
      simp at hmem
      rcases hmem with h | h
      · exact hd h.symm
      · exact absurd h.symm (ne_of_head_tab_nl rfl rfl)
    · intro hlen
      rw [CommandMethod.print_help, if_pos hlen]
      simp
  · refine ⟨[m.main, "\nUsage:",
      "\tpython -m " ++ module_name ++ " " ++ m.name ++ " " ++ m.short_params] ++
      (if 0 < m.params.length then
        "\nPositional arguments:" ::
          m.required_params.map
            (fun p => "\t" ++ _right_pad p.name m.longest_param_name_length ++ "\t" ++ p.details)
      else []), ?_, ?_⟩
    · rw [CommandMethod.print_help]
      simp
    · intro hmem
      simp at hmem
      rcases hmem with h | h | ⟨-, p, -, hp⟩
      · exact ho h.symm
      · exact absurd h.symm (ne_of_head_tab_nl rfl rfl)
      · exact absurd hp (ne_of_head_tab_nl rfl rfl)

/-- Witness for C4 (amended) at the optional-only command. -/
theorem print_help_blocks_witness :
    (mOnlyOpt.main ≠ "\nPositional arguments:" ∧ mOnlyOpt.main ≠ "\nOptions:") ∧
    (("\nPositional arguments:" ∈ mOnlyOpt.print_help "app" ↔ 0 < mOnlyOpt.params.length) ∧
    (∃ pre,
      mOnlyOpt.print_help "app" =
        pre ++ "\nOptions:" :: "\t--help\tShow this screen." ::
          mOnlyOpt.optional_params.map
            (fun p => "\t--" ++ _right_pad p.name mOnlyOpt.longest_param_name_length ++
              "\t" ++ p.details) ∧
      "\nOptions:" ∉ pre)) :=
  ⟨⟨by decide, by decide⟩, print_help_blocks mOnlyOpt "app" (by decide) (by decide)⟩

/-- Short required parameter of the padding example. -/
def pShort : CommandParam := ⟨"a", 0, false, Anno.unspecified, "da"⟩

/-- Long optional parameter of the padding example. -/
def pLong : CommandParam := ⟨"long", 1, true, Anno.boolean, "db"⟩

/-- Command whose parameter names have different lengths. -/
def mPad : CommandMethod := ⟨"c", "doc", [pShort, pLong], implEx⟩

/-- C7: right padding is inverted in the code. The name column for the
short required parameter is printed with width 1, strictly below the
longest parameter name length 4, because _right_pad appends
`len(string) - count` spaces instead of `count - len(string)`. -/
theorem right_pad_code_bug :
    mPad.longest_param_name_length = 4 ∧
    _right_pad "a" 4 = "a" ∧
    ("\t" ++ _right_pad "a" mPad.longest_param_name_length ++ "\t" ++ "da")
      ∈ mPad.print_help "app" ∧
    (_right_pad "a" mPad.longest_param_name_length).length < mPad.longest_param_name_length := by
  refine ⟨by decide, by decide, ?_, by decide⟩
  decide

/-- FunctionDef node of the parsed source: the function name, plus the
names of every function definition nested anywhere inside its body.
Discovery only reads the name; the nested names are inert data recording
what is not at the top level of the source unit. -/
structure FunctionDef where
  name : String
  nestedNames : List String
deriving DecidableEq

/-- One statement of the parsed module body: a function definition or any
other statement kind. -/
inductive PyStmt where
  | funcDef (f : FunctionDef)
  | other
deriving DecidableEq

/-- _top_level_functions: yield exactly the FunctionDef statements of the
given body, in order; the bodies of those definitions are not visited. -/
def _top_level_functions (body : List PyStmt) : List FunctionDef :=
  body.filterMap (fun s => match s with
    | PyStmt.funcDef f => some f
    | PyStmt.other => none)

/-- Ordered key view of a Python dict assignment: a new key goes to the
end, an existing key keeps its position. -/
def dictInsertKey (keys : List String) (k : String) : List String :=
  if k ∈ keys then keys else keys ++ [k]

/-- _get_command_list restricted to the dict keys (the registered command
names): walk the top-level function definitions in declaration order and
record the name whenever the live function object bound to that name on
the imported module carries the clippy command marker. `isClippyCommand`
models the opt-in marker test from common.py (not among the sources) via
the spec command marker contract. -/
def _get_command_list (body : List PyStmt) (isClippyCommand : String → Bool) : List String :=
  (_top_level_functions body).foldl
    (fun result f => if isClippyCommand f.name then dictInsertKey result f.name else result) []

/-- Unfolding of the registration fold: with pairwise distinct names that
are fresh for the accumulator, the fold appends the tagged names in order. -/
theorem get_command_list_go (isCmd : String → Bool) :
    ∀ (l : List FunctionDef) (acc : List String),
      (∀ f ∈ l, isCmd f.name = true → f.name ∉ acc) →
      (l.map FunctionDef.name).Nodup →
      l.foldl (fun result f => if isCmd f.name then dictInsertKey result f.name else result) acc =
        acc ++ (l.filter (fun f => isCmd f.name)).map FunctionDef.name
  | [], acc, _, _ => by simp
  | f :: fs, acc, hfresh, hnd => by
    have hnd' : (fs.map FunctionDef.name).Nodup := (List.nodup_cons.mp (by simpa using hnd)).2
    have hhead : f.name ∉ fs.map FunctionDef.name := (List.nodup_cons.mp (by simpa using hnd)).1
    by_cases hc : isCmd f.name = true
    · have hfresh' : ∀ g ∈ fs, isCmd g.name = true → g.name ∉ acc ++ [f.name] := by
        intro g hg hcg
        rw [List.mem_append, List.mem_singleton]
        rintro (hga | hgf)
        · exact hfresh g (List.mem_cons_of_mem f hg) hcg hga
        · exact hhead (hgf ▸ List.mem_map_of_mem FunctionDef.name hg)
      rw [List.foldl_cons, if_pos hc, dictInsertKey,
        if_neg (hfresh f (List.mem_cons_self f fs) hc),
        get_command_list_go isCmd fs (acc ++ [f.name]) hfresh' hnd',
        List.filter_cons_of_pos (p := fun g : FunctionDef => isCmd g.name) hc, List.map_cons, List.append_assoc, List.singleton_append]
    · have hfresh' : ∀ g ∈ fs, isCmd g.name = true → g.name ∉ acc :=
        fun g hg => hfresh g (List.mem_cons_of_mem f hg)
      rw [List.foldl_cons, if_neg hc,
        get_command_list_go isCmd fs acc hfresh' hnd',
        List.filter_cons_of_neg (p := fun g : FunctionDef => isCmd g.name) (by simpa using hc)]

/-- Membership in the list of top-level definitions is membership of the
definition among the statements of the body. -/
theorem mem_top_level_functions {body : List PyStmt} {f : FunctionDef} :
    f ∈ _top_level_functions body ↔ PyStmt.funcDef f ∈ body := by
  rw [_top_level_functions, List.mem_filterMap]
  constructor
  · rintro ⟨s, hs, hm⟩
    cases s with
    | funcDef g =>
      simp only [Option.some.injEq] at hm
      exact hm ▸ hs
    | other => exact absurd hm (by simp)
  · intro hf
    exact ⟨PyStmt.funcDef f, hf, rfl⟩

/-- C2: with distinct top-level function names, the registry keys are
exactly the names of the explicitly tagged top-level function definitions,
in their syntactic declaration order, and a name is registered if and only
if a top-level (hence never a nested) definition with that name exists and
the live function object matched by that name carries the command marker. -/
theorem get_command_list_spec (body : List PyStmt) (isCmd : String → Bool)
    (hnd : ((_top_level_functions body).map FunctionDef.name).Nodup) :
    _get_command_list body isCmd =
      ((_top_level_functions body).filter (fun f => isCmd f.name)).map FunctionDef.name ∧
    ∀ n, n ∈ _get_command_list body isCmd ↔
      ∃ f, PyStmt.funcDef f ∈ body ∧ f.name = n ∧ isCmd n = true := by
  have h := get_command_list_go isCmd (_top_level_functions body) [] (by simp) hnd
  rw [List.nil_append] at h
  refine ⟨h, fun n => ?_⟩
  rw [_get_command_list, h, List.mem_map]
  constructor
  · rintro ⟨f, hf, rfl⟩
    have hmem := List.mem_of_mem_filter hf
    have hcmd : isCmd f.name = true := by simpa using List.of_mem_filter hf
    exact ⟨f, mem_top_level_functions.mp hmem, rfl, hcmd⟩
  · rintro ⟨f, hf, rfl, hcmd⟩
    exact ⟨f, List.mem_filter.mpr ⟨mem_top_level_functions.mpr hf, by simpa using hcmd⟩, rfl⟩

/-- Body of the example source unit: a tagged top-level function, an
untagged top-level function holding a nested tagged name, a non-function
statement, and another tagged top-level function. -/
def bodyEx : List PyStmt :=
  [PyStmt.funcDef ⟨"alpha", []⟩,
   PyStmt.funcDef ⟨"beta", ["inner"]⟩,
   PyStmt.other,
   PyStmt.funcDef ⟨"gamma", []⟩]

/-- Marker test of the example module: alpha, gamma and the nested inner
carry the command marker; beta does not. -/
def isCmdEx : String → Bool := fun n => n == "alpha" || n == "gamma" || n == "inner"

/-- Witness for C2 at the example body: the nested tagged name is not
registered, the tagged top-level names are, in declaration order. -/
theorem get_command_list_spec_witness :
    ((_top_level_functions bodyEx).map FunctionDef.name).Nodup ∧
    (_get_command_list bodyEx isCmdEx =
      ((_top_level_functions bodyEx).filter (fun f => isCmdEx f.name)).map FunctionDef.name ∧
    ∀ n, n ∈ _get_command_list bodyEx isCmdEx ↔
      ∃ f, PyStmt.funcDef f ∈ bodyEx ∧ f.name = n ∧ isCmdEx n = true) :=
  ⟨by decide, get_command_list_spec bodyEx isCmdEx (by decide)⟩


/-- CommandModule state after construction: module name, documentation,
version data and the ordered command dictionary (key-value pairs in
insertion order). -/
structure CommandModule where
  name : String
  documentation : String
  has_version : Bool
  version : String
  commands : List (String × CommandMethod)

/-- Python truthiness of an optional string: None and the empty string are
falsy, every other string is truthy. -/
def pyTruthy : Option String → Bool
  | Option.none => false
  | Option.some s => !(s == "")

/-- CommandModule.__init__: `_has_version = bool(version)`, `_version`
falls back to the placeholder on a falsy version, the command dictionary
defaults to empty (an empty list already is the empty dictionary here).
Modelled from the spec: the CommandProtocol base class constructor (its
file command_protocols.py is not among the sources) stores the module
name and the documentation with the documented placeholder default. -/
def CommandModule.make (name : String) (documentation : Option String)
    (version : Option String) (command_list : List (String × CommandMethod)) : CommandModule :=
  { name := name,
    documentation := match documentation with
      | Option.some d => d
      | Option.none => "No documentation provided.",
    has_version := pyTruthy version,
    version := match version with
      | Option.some s => if s == "" then "No version provided." else s
      | Option.none => "No version provided.",
    commands := command_list }

/-- CommandModule.longest_param_name_length: on an empty command
dictionary, the length of the rendered reserved token; otherwise the
maximum of the per-command longest lengths and that reserved length. -/
def CommandModule.longest_param_name_length (mod : CommandModule) : Nat :=
  if mod.commands.isEmpty then
    if mod.has_version then "--version".length else "--help".length
  else
    ((mod.commands.map (fun c => c.2.longest_param_name_length)) ++
      [if mod.has_version then "--version".length else "--help".length]).foldl max 0

/-- The name lengths of every parameter of every command of the registry,
in registry then declaration order. -/
def allParamNameLengths (mod : CommandModule) : List Nat :=
  mod.commands.foldr (fun c acc => (c.2.params.map (fun p => p.name.length)) ++ acc) []

/-- Folding max from an arbitrary seed is the max of the seed and the fold
from zero. -/
theorem foldl_max_init : ∀ (l : List Nat) (a : Nat),
    l.foldl max a = max a (l.foldl max 0)
  | [], a => by simp
  | b :: t, a => by
    rw [List.foldl_cons, List.foldl_cons, foldl_max_init t (max a b),
      foldl_max_init t (max 0 b), Nat.zero_max, Nat.max_assoc]

/-- Folding max over a concatenation is the max of the two folds. -/
theorem foldl_max_append (l₁ l₂ : List Nat) :
    (l₁ ++ l₂).foldl max 0 = max (l₁.foldl max 0) (l₂.foldl max 0) := by
  rw [List.foldl_append, foldl_max_init]

/-- The per-command longest length always equals the fold of the name
lengths, the empty case included. -/
theorem method_longest_eq (m : CommandMethod) :
    m.longest_param_name_length = (m.params.map (fun p => p.name.length)).foldl max 0 := by
  rw [CommandMethod.longest_param_name_length]
  by_cases h : m.params.length < 1
  · have hnil : m.params = [] := List.eq_nil_of_length_eq_zero (by omega)
    rw [if_pos h, hnil]
    rfl
  · rw [if_neg h]

/-- Folding max over the per-command longest lengths equals folding max
over the concatenation of all parameter name lengths. -/
theorem fold_per_command_eq_flat : ∀ (L : List (String × CommandMethod)),
    (L.map (fun c => c.2.longest_param_name_length)).foldl max 0 =
      (L.foldr (fun c acc => (c.2.params.map (fun p => p.name.length)) ++ acc) []).foldl max 0
  | [] => rfl
  | c :: L => by
    rw [List.map_cons, List.foldr_cons, List.foldl_cons, foldl_max_init, Nat.zero_max,
      foldl_max_append, fold_per_command_eq_flat L, method_longest_eq]

/-- C5: the registry-level longest parameter name length is the maximum of
every parameter name length of every command together with the rendered
reserved token lengths, the help token always and the version token when a
version is present; with no commands the parameter lengths vanish and the
reserved lengths alone remain. -/
theorem module_longest_param_name_length_spec (mod : CommandModule) :
    mod.longest_param_name_length =
      ((allParamNameLengths mod) ++
        "--help".length :: (if mod.has_version then ["--version".length] else [])).foldl
        max 0 := by
  have hflat : (allParamNameLengths mod).foldl max 0 =
      (mod.commands.map (fun c => c.2.longest_param_name_length)).foldl max 0 :=
    (fold_per_command_eq_flat mod.commands).symm
  conv_rhs => rw [foldl_max_append]
  rw [hflat, CommandModule.longest_param_name_length]
  by_cases hemp : mod.commands.isEmpty
  · have hnil : mod.commands = [] := by
      cases hc : mod.commands with
      | nil => rfl
      | cons a l => rw [hc] at hemp; exact absurd hemp (by simp)
    rw [if_pos hemp, hnil]
    cases hv : mod.has_version <;> decide
  · rw [if_neg hemp, foldl_max_append]
    cases hv : mod.has_version <;> rfl

/-- When every command of a list has no parameters, the fold of the
per-command longest lengths is zero. -/
theorem foldl_max_zero_of_no_params : ∀ (L : List (String × CommandMethod)),
    (∀ c ∈ L, c.2.params = []) →
    (L.map (fun c => c.2.longest_param_name_length)).foldl max 0 = 0
  | [], _ => rfl
  | c :: L, h => by
    have hc : c.2.longest_param_name_length = 0 := by
      rw [CommandMethod.longest_param_name_length, h c (List.mem_cons_self c L)]
      rfl
    rw [List.map_cons, List.foldl_cons, hc, Nat.max_self,
      foldl_max_zero_of_no_params L (fun d hd => h d (List.mem_cons_of_mem c hd))]

/-- Command with an empty parameter mapping. -/
def mNoParams : CommandMethod := ⟨"nop", "doc", [], implEx⟩

/-- C6 counterexample: on a command with zero parameters the method
returns 0, which is no reserved token length under any reading. -/
theorem method_longest_counterexample :
    mNoParams.params = [] ∧
    mNoParams.longest_param_name_length = 0 ∧
    mNoParams.longest_param_name_length ≠ "help".length ∧
    mNoParams.longest_param_name_length ≠ "--help".length ∧
    mNoParams.longest_param_name_length ≠ "version".length ∧
    mNoParams.longest_param_name_length ≠ "--version".length := by decide

/-- C6 amended: a command with zero parameters reports 0; a registry all
of whose commands (possibly none) have zero parameters reports the length
of the rendered reserved token, the version one when a version is present
and the help one otherwise; both values are total, well defined naturals. -/
theorem longest_param_name_length_zero_spec :
    (∀ (c : CommandMethod), c.params = [] → c.longest_param_name_length = 0) ∧
    (∀ (mod : CommandModule), (∀ c ∈ mod.commands, c.2.params = []) →
      mod.longest_param_name_length =
        (if mod.has_version then "--version".length else "--help".length)) := by
  constructor
  · intro c hc
    rw [CommandMethod.longest_param_name_length, hc]
    rfl
  · intro mod h
    rw [CommandModule.longest_param_name_length]
    by_cases hemp : mod.commands.isEmpty
    · rw [if_pos hemp]
    · rw [if_neg hemp, foldl_max_append, foldl_max_zero_of_no_params mod.commands h,
        Nat.zero_max]
      cases hv : mod.has_version <;> rfl

/-- Registry holding one parameterless command and a version. -/
def modNoParams : CommandModule := ⟨"m", "d", true, "1.0", [("nop", mNoParams)]⟩

/-- Witness for C6 (amended) at a parameterless command and a registry of
parameterless commands. -/
theorem longest_param_name_length_zero_spec_witness :
    (mNoParams.params = [] ∧ mNoParams.longest_param_name_length = 0) ∧
    ((∀ c ∈ modNoParams.commands, c.2.params = []) ∧
      modNoParams.longest_param_name_length =
        (if modNoParams.has_version then "--version".length else "--help".length)) :=
  ⟨⟨by decide, longest_param_name_length_zero_spec.1 mNoParams (by decide)⟩,
    ⟨by decide, longest_param_name_length_zero_spec.2 modNoParams (by decide)⟩⟩

/-- C9: a module constructed with no version or the empty string reports
has_version false and the placeholder version text; with any non-empty
version string it reports has_version true and that string verbatim. -/
theorem command_module_version_spec :
    (∀ (name : String) (doc : Option String) (cmds : List (String × CommandMethod)),
      (CommandModule.make name doc Option.none cmds).has_version = false ∧
      (CommandModule.make name doc Option.none cmds).version = "No version provided.") ∧
    (∀ (name : String) (doc : Option String) (cmds : List (String × CommandMethod)),
      (CommandModule.make name doc (Option.some "") cmds).has_version = false ∧
      (CommandModule.make name doc (Option.some "") cmds).version = "No version provided.") ∧
    (∀ (name : String) (doc : Option String) (cmds : List (String × CommandMethod))
      (s : String), s ≠ "" →
      (CommandModule.make name doc (Option.some s) cmds).has_version = true ∧
      (CommandModule.make name doc (Option.some s) cmds).version = s) := by
  refine ⟨fun n d c => ⟨rfl, rfl⟩, fun n d c => ⟨rfl, rfl⟩, fun n d c s hs => ⟨?_, ?_⟩⟩
  · simp [CommandModule.make, pyTruthy, hs]
  · simp [CommandModule.make, hs]

/-- Witness for C9 at a concrete non-empty version string. -/
theorem command_module_version_spec_witness :
    ("1.0" : String) ≠ "" ∧
    (CommandModule.make "m" Option.none (Option.some "1.0") []).has_version = true ∧
    (CommandModule.make "m" Option.none (Option.some "1.0") []).version = "1.0" :=
  ⟨by decide, (command_module_version_spec.2.2 "m" Option.none [] "1.0" (by decide)).1,
    (command_module_version_spec.2.2 "m" Option.none [] "1.0" (by decide)).2⟩

/-- CommandMethod.call: `self._impl(**args)` — hand the named arguments to
the bound callable and return whatever it returns or raises. -/
def CommandMethod.call (m : CommandMethod) (args : List (String × Value)) :
    Except PyErr Value :=
  m.impl args

/-- C8: call invokes the bound callable with exactly the supplied named
arguments, surfaces its value, and propagates any error it raises
unchanged; nothing is caught or reinterpreted. -/
theorem call_spec (m : CommandMethod) (args : List (String × Value)) :
    m.call args = m.impl args ∧
    (∀ e, m.impl args = Except.error e → m.call args = Except.error e) ∧
    (∀ v, m.impl args = Except.ok v → m.call args = Except.ok v) :=
  ⟨rfl, fun _ h => h, fun _ h => h⟩

/-- Implementation that raises an application error. -/
def implBoom : List (String × Value) → Except PyErr Value :=
  fun _ => Except.error (PyErr.appError "boom")

/-- Command bound to the raising implementation. -/
def mBoom : CommandMethod := ⟨"b", "doc", [], implBoom⟩

/-- Witness for C8: the application error of the callable is the result of
call, unchanged. -/
theorem call_spec_witness :
    mBoom.impl [] = Except.error (PyErr.appError "boom") ∧
    mBoom.call [] = Except.error (PyErr.appError "boom") :=
  ⟨rfl, ((call_spec mBoom []).2.1 (PyErr.appError "boom")) rfl⟩

/-- Stack frame record; only the filename field is read by the embedded
code paths. -/
structure FrameInfo where
  filename : String
deriving DecidableEq

/-- _get_parent_stack_frame on the explicitly-supplied-stack path: the
negative index check, the shallow-stack check against `index + 1`, then
the access `stack[index + 1]`, where an out-of-range subscript raises the
undeclared IndexError. The `stack is None` branch (live interpreter stack
introspection) and the dynamic type checks on non-int and non-FrameInfo
arguments lie outside this typed embedding. -/
def _get_parent_stack_frame (index : Int) (stack : List FrameInfo) : Except PyErr FrameInfo :=
  if index < 0 then
    Except.error (PyErr.valueError
      ("Parameter index must be zero or greater, received " ++ toString index))
  else if (stack.length : Int) < index + 1 then
    Except.error (PyErr.valueError ("Stack is too shallow to retrieve index " ++ toString index))
  else
    match stack[(index + 1).toNat]? with
    | Option.some f => Except.ok f
    | Option.none => Except.error PyErr.indexError

/-- C10: at index 0 with a one-frame stack (which holds index + 1 frames)
the shallow-stack guard passes, yet the subsequent access stack[1] is out
of bounds, so the function raises the undeclared IndexError instead of a
declared error or a frame. -/
theorem get_parent_stack_frame_oob :
    (0 : Int) ≤ 0 ∧
    ((([⟨"a.py"⟩] : List FrameInfo).length : Int) = 0 + 1) ∧
    _get_parent_stack_frame 0 [⟨"a.py"⟩] = Except.error PyErr.indexError :=
  ⟨by decide, by decide, rfl⟩
